import Mathlib

/-!
Shallow embedding of `src/main.py` (SQLite toy shop database).

Modelling conventions:
* A database state is a pair of tables: `customers` and `orders`, each a list
  of rows in insertion order (SQLite scans them in rowid order).
* SQLite `REAL` amounts are modelled as exact rationals (`Rat`); floating point
  rounding is outside the model.
* SQLite `TEXT` is `String`; the `BINARY` collation used by `ORDER BY` is
  modelled by lexicographic comparison of the character list (`strLtb` below),
  which agrees with byte order on the data this program stores.
* `NULL`able columns (`customers.city`) are `Option`; SQLite groups `NULL`s
  together in `GROUP BY`/`PARTITION BY` and sorts them before all non-`NULL`
  values in ascending `ORDER BY`, which the `cityLt` relation below mirrors.
* A failed statement raises `sqlite3.IntegrityError`; the `with conn:` block
  then rolls the whole transaction back.  A write batch is therefore a
  function returning `Option DB`: `some db'` is a committed state, `none` is
  an aborted batch whose caller keeps the previous state (`commitResult`).
* `strftime` with format `%Y-%m` on the ISO dates this program stores yields
  the first seven characters of the date string.
-/

/-- A row of the `customers` table (`SCHEMA`, src/main.py lines 35-42). -/
structure Customer where
  customer_id : Nat
  first_name : String
  last_name : String
  email : String
  city : Option String
  signup_date : String
deriving DecidableEq, Repr

/-- A row of the `orders` table (`SCHEMA`, src/main.py lines 44-52). -/
structure Order where
  order_id : Nat
  customer_id : Nat
  order_date : String
  category : String
  amount : Rat
  status : String
deriving DecidableEq, Repr

/-- A database state: the two tables, rows in rowid order. -/
structure DB where
  customers : List Customer
  orders : List Order
deriving DecidableEq, Repr

/-- An insert tuple for `customers` (no id: `INTEGER PRIMARY KEY` is auto-assigned). -/
structure CustomerRow where
  first_name : String
  last_name : String
  email : String
  city : Option String
  signup_date : String
deriving DecidableEq, Repr

/-- An insert tuple for `orders` (no id: auto-assigned). -/
structure OrderRow where
  customer_id : Nat
  order_date : String
  category : String
  amount : Rat
  status : String
deriving DecidableEq, Repr

/-- Auto-assignment of `customer_id` (SQLite `INTEGER PRIMARY KEY`: max + 1). -/
def nextCustomerId (db : DB) : Nat :=
  (db.customers.map (fun c => c.customer_id)).foldl max 0 + 1

/-- Auto-assignment of `order_id`. -/
def nextOrderId (db : DB) : Nat :=
  (db.orders.map (fun o => o.order_id)).foldl max 0 + 1

/-- The `CHECK(status IN ('PAID','CANCELLED','REFUNDED'))` domain constraint. -/
def statusOk (s : String) : Bool :=
  s == "PAID" || s == "CANCELLED" || s == "REFUNDED"

/-- One `INSERT INTO customers(first_name,last_name,email,city,signup_date)`.
`none` models an `IntegrityError` from the `email TEXT UNIQUE` constraint. -/
def insertCustomer (db : DB) (r : CustomerRow) : Option DB :=
  if db.customers.any (fun c => c.email == r.email) then none
  else some (DB.mk
    (db.customers ++
      [Customer.mk (nextCustomerId db) r.first_name r.last_name r.email r.city r.signup_date])
    db.orders)

/-- One `INSERT INTO orders(customer_id,order_date,category,amount,status)`.
With `PRAGMA foreign_keys = ON` (src/main.py line 26) the row must reference an
existing customer, and the `status` `CHECK` constraint must hold; otherwise the
statement raises `IntegrityError` (`none`).  No constraint restricts `amount`
beyond `NOT NULL`. -/
def insertOrder (db : DB) (r : OrderRow) : Option DB :=
  if db.customers.any (fun c => c.customer_id == r.customer_id) && statusOk r.status then
    some (DB.mk db.customers
      (db.orders ++
        [Order.mk (nextOrderId db) r.customer_id r.order_date r.category r.amount r.status]))
  else none

/-- `load_customers` (src/main.py lines 109-114): `executemany` inside `with conn:`,
row by row, aborting the whole batch at the first failing row. -/
def load_customers (db : DB) : List CustomerRow → Option DB
  | [] => some db
  | r :: rows =>
    match insertCustomer db r with
    | none => none
    | some db1 => load_customers db1 rows

/-- `load_orders` (src/main.py lines 117-122): `executemany` inside `with conn:`,
row by row, aborting the whole batch at the first failing row. -/
def load_orders (db : DB) : List OrderRow → Option DB
  | [] => some db
  | r :: rows =>
    match insertOrder db r with
    | none => none
    | some db1 => load_orders db1 rows

/-- The state visible after a `with conn:` block: the new state on success,
the unchanged previous state after a rollback. -/
def commitResult (db : DB) (res : Option DB) : DB :=
  res.getD db

/-- The row the transaction demo inserts twice (src/main.py lines 203-211);
`today` stands for `datetime.now().strftime`. -/
def temporalRow (today : String) : CustomerRow :=
  CustomerRow.mk "Temporal" "Test" "temporal@example.com" (some "Santiago") today

/-- `demo_tx_and_params` (src/main.py lines 199-219): inside one `with conn:`
block insert `temporalRow` twice.  The returned flag is `true` exactly when an
`IntegrityError` was raised and caught, in which case the whole block is rolled
back and the previous state is kept. -/
def demo_tx_and_params (db : DB) (today : String) : DB × Bool :=
  match insertCustomer db (temporalRow today) with
  | none => (db, true)
  | some db1 =>
    match insertCustomer db1 (temporalRow today) with
    | none => (db, true)
    | some db2 => (db2, false)

/-- The parameterized read `SELECT COUNT(*) FROM customers WHERE city = ?`. -/
def count_customers_in_city (db : DB) (city : String) : Nat :=
  (db.customers.filter (fun c => c.city == some city)).length

theorem insertOrder_customers {db db' : DB} {r : OrderRow}
    (h : insertOrder db r = some db') : db'.customers = db.customers := by
  unfold insertOrder at h
  by_cases hc : (db.customers.any (fun c => c.customer_id == r.customer_id) && statusOk r.status) = true
  · rw [if_pos hc] at h
    cases h
    rfl
  · rw [if_neg hc] at h
    cases h

theorem load_orders_none (db : DB) (rows : List OrderRow) (r : OrderRow) (hr : r ∈ rows)
    (hbad : ∀ cs : List Customer, cs = db.customers →
      (cs.any (fun c => c.customer_id == r.customer_id) && statusOk r.status) = false) :
    load_orders db rows = none := by
  induction rows generalizing db with
  | nil => cases hr
  | cons a l ih =>
    unfold load_orders
    rcases List.mem_cons.mp hr with h | h
    · subst h
      have : insertOrder db r = none := by
        unfold insertOrder
        rw [if_neg]
        intro hco
        exact absurd hco (by rw [hbad db.customers rfl]; exact Bool.false_ne_true)
      rw [this]
    · cases hins : insertOrder db a with
      | none => rfl
      | some db1 =>
        exact ih db1 h (fun cs hcs => hbad cs (hcs.trans (insertOrder_customers hins)))

theorem demo_tx_rolls_back (db : DB) (today : String) :
    demo_tx_and_params db today = (db, true) := by
  unfold demo_tx_and_params
  cases hins : insertCustomer db (temporalRow today) with
  | none => rfl
  | some db1 =>
    have hmem : ∃ c ∈ db1.customers, c.email = "temporal@example.com" := by
      unfold insertCustomer at hins
      by_cases h : db.customers.any (fun c => c.email == (temporalRow today).email) = true
      · rw [if_pos h] at hins
        cases hins
      · rw [if_neg h] at hins
        cases hins
        refine ⟨Customer.mk (nextCustomerId db) (temporalRow today).first_name
          (temporalRow today).last_name (temporalRow today).email (temporalRow today).city
          (temporalRow today).signup_date, ?_, ?_⟩
        · simp
        · rfl
    have h2 : insertCustomer db1 (temporalRow today) = none := by
      have hany : db1.customers.any (fun c => c.email == (temporalRow today).email) = true := by
        rw [List.any_eq_true]
        rcases hmem with ⟨c, hc, hce⟩
        exact ⟨c, hc, by rw [hce]; rfl⟩
      unfold insertCustomer
      rw [if_pos hany]
    show (match insertCustomer db1 (temporalRow today) with
      | none => (db, true)
      | some db2 => (db2, false)) = (db, true)
    rw [h2]

/-- C5: running the transaction-integrity demo on any prior state leaves the
state (in particular the customer count) unchanged: the duplicate-email insert
raises an integrity violation that is caught (`true` flag) and the whole atomic
block, including the first insert, rolls back; the subsequent parameterized
count-by-city read sees the pre-demo state. -/
theorem demo_tx_and_params_spec (db : DB) (today : String) :
    (demo_tx_and_params db today).1 = db ∧
    (demo_tx_and_params db today).2 = true ∧
    (demo_tx_and_params db today).1.customers.length = db.customers.length ∧
    (∀ city : String,
      count_customers_in_city (demo_tx_and_params db today).1 city =
        count_customers_in_city db city) := by
  rw [demo_tx_rolls_back]
  exact ⟨rfl, rfl, rfl, fun _ => rfl⟩

/-- Sample pre-demo state used to instantiate the hypothesis-free parts of the
claims on a concrete input. -/
def exDb5 : DB :=
  DB.mk
    [Customer.mk 1 "Ana" "Soto" "user0@example.com" (some "Santiago") "2023-01-01"]
    []

/-- C5 witness: the demo run on a concrete one-customer state keeps the
customer count at 1 and reports the caught violation. -/
theorem demo_tx_and_params_spec_witness :
    (demo_tx_and_params exDb5 "2025-10-12").1 = exDb5 ∧
    (demo_tx_and_params exDb5 "2025-10-12").2 = true ∧
    (demo_tx_and_params exDb5 "2025-10-12").1.customers.length = exDb5.customers.length ∧
    (∀ city : String,
      count_customers_in_city (demo_tx_and_params exDb5 "2025-10-12").1 city =
        count_customers_in_city exDb5 city) :=
  demo_tx_and_params_spec exDb5 "2025-10-12"

/-- C6: a batch containing an order row whose `customer_id` matches no customer
fails as a whole (`none`, i.e. `IntegrityError` + rollback) and the committed
state — hence the `orders` table — is exactly the previous one. -/
theorem load_orders_fk_violation (db : DB) (rows : List OrderRow) (r : OrderRow)
    (hr : r ∈ rows) (hfk : ∀ c ∈ db.customers, c.customer_id ≠ r.customer_id) :
    load_orders db rows = none ∧
    (commitResult db (load_orders db rows)).orders = db.orders := by
  have hnone : load_orders db rows = none := by
    apply load_orders_none db rows r hr
    intro cs hcs
    subst hcs
    apply Bool.and_eq_false_iff.mpr
    left
    rw [List.any_eq_false]
    intro c hc
    simpa using hfk c hc
  exact ⟨hnone, by rw [hnone]; rfl⟩

/-- Customers table shared by the C6/C7 witnesses' concrete states. -/
def exDb6 : DB :=
  DB.mk
    [Customer.mk 1 "Ana" "Soto" "user0@example.com" (some "Santiago") "2023-01-01"]
    []

/-- A batch whose second row references the nonexistent customer 42. -/
def badFkRows : List OrderRow :=
  [OrderRow.mk 1 "2024-01-05" "Books" 10 "PAID",
   OrderRow.mk 42 "2024-01-06" "Home" 20 "PAID"]

/-- C6 witness: the concrete two-row batch with a dangling reference is
rejected as a whole and the orders table stays empty. -/
theorem load_orders_fk_violation_witness :
    (OrderRow.mk 42 "2024-01-06" "Home" 20 "PAID") ∈ badFkRows ∧
    (∀ c ∈ exDb6.customers, c.customer_id ≠ 42) ∧
    (load_orders exDb6 badFkRows = none ∧
      (commitResult exDb6 (load_orders exDb6 badFkRows)).orders = exDb6.orders) :=
  ⟨by decide, by decide,
    load_orders_fk_violation exDb6 badFkRows (OrderRow.mk 42 "2024-01-06" "Home" 20 "PAID")
      (by decide) (by decide)⟩

/-- C7: a batch containing an order row whose `status` is outside
{PAID, CANCELLED, REFUNDED} fails as a whole at write time (the `CHECK`
constraint is part of the schema, i.e. enforced by the store), and the
committed state is the previous one. -/
theorem load_orders_status_violation (db : DB) (rows : List OrderRow) (r : OrderRow)
    (hr : r ∈ rows)
    (hst : r.status ≠ "PAID" ∧ r.status ≠ "CANCELLED" ∧ r.status ≠ "REFUNDED") :
    load_orders db rows = none ∧
    (commitResult db (load_orders db rows)).orders = db.orders := by
  have hnone : load_orders db rows = none := by
    apply load_orders_none db rows r hr
    intro cs _
    apply Bool.and_eq_false_iff.mpr
    right
    unfold statusOk
    rcases hst with ⟨h1, h2, h3⟩
    simp [h1, h2, h3]
  exact ⟨hnone, by rw [hnone]; rfl⟩

/-- A batch whose single row has the out-of-domain status `SHIPPED`. -/
def shippedRows : List OrderRow :=
  [OrderRow.mk 1 "2024-01-05" "Books" 10 "SHIPPED"]

/-- C7 witness: inserting a `SHIPPED` order into a concrete state fails and
leaves the orders table unchanged. -/
theorem load_orders_status_violation_witness :
    (OrderRow.mk 1 "2024-01-05" "Books" 10 "SHIPPED") ∈ shippedRows ∧
    (load_orders exDb6 shippedRows = none ∧
      (commitResult exDb6 (load_orders exDb6 shippedRows)).orders = exDb6.orders) :=
  ⟨by decide,
    load_orders_status_violation exDb6 shippedRows
      (OrderRow.mk 1 "2024-01-05" "Books" 10 "SHIPPED") (by decide) (by decide)⟩

/-- Concrete state reached from `exDb6` by inserting an order with a negative
amount: the schema has no positivity constraint on `amount`. -/
def negAmountRow : OrderRow := OrderRow.mk 1 "2024-01-05" "Books" (-5) "PAID"

/-- C8 counterexample: the claim says the store rejects non-positive amounts at
write time, but `amount REAL NOT NULL` carries no positivity check: the insert
succeeds and the reached state contains a row with `amount < 0`. -/
theorem amount_not_checked_counterexample :
    load_orders exDb6 [negAmountRow] =
      some (DB.mk exDb6.customers [Order.mk 1 1 "2024-01-05" "Books" (-5) "PAID"]) ∧
    ∃ db' : DB, load_orders exDb6 [negAmountRow] = some db' ∧
      ∃ o ∈ db'.orders, o.amount < 0 :=
  ⟨by decide,
    DB.mk exDb6.customers [Order.mk 1 1 "2024-01-05" "Books" (-5) "PAID"],
    by decide, by decide⟩

/-- C8 amended: the store enforces referential integrity and the status domain
on order inserts but places no constraint on the sign of `amount`: a row whose
customer exists and whose status is in the enumeration is accepted and stored
even when its amount is not positive.  (Amount positivity is a property of the
synthetic data generator, not an invariant enforced by the schema.) -/
theorem amount_not_checked_amended (db : DB) (r : OrderRow)
    (hfk : db.customers.any (fun c => c.customer_id == r.customer_id) = true)
    (hst : statusOk r.status = true) (hneg : r.amount ≤ 0) :
    insertOrder db r =
      some (DB.mk db.customers
        (db.orders ++
          [Order.mk (nextOrderId db) r.customer_id r.order_date r.category r.amount r.status])) ∧
    (Order.mk (nextOrderId db) r.customer_id r.order_date r.category r.amount r.status).amount
      ≤ 0 := by
  constructor
  · unfold insertOrder
    rw [if_pos (by rw [hfk, hst]; rfl)]
  · exact hneg

/-- C8 amended witness: the negative-amount row is accepted on the concrete
state `exDb6`. -/
theorem amount_not_checked_amended_witness :
    (exDb6.customers.any (fun c => c.customer_id == negAmountRow.customer_id) = true) ∧
    (statusOk negAmountRow.status = true) ∧
    (negAmountRow.amount ≤ 0) ∧
    (insertOrder exDb6 negAmountRow =
      some (DB.mk exDb6.customers
        (exDb6.orders ++
          [Order.mk (nextOrderId exDb6) negAmountRow.customer_id negAmountRow.order_date
            negAmountRow.category negAmountRow.amount negAmountRow.status])) ∧
      (Order.mk (nextOrderId exDb6) negAmountRow.customer_id negAmountRow.order_date
        negAmountRow.category negAmountRow.amount negAmountRow.status).amount ≤ 0) :=
  ⟨by decide, by decide, by decide,
    amount_not_checked_amended exDb6 negAmountRow (by decide) (by decide) (by decide)⟩

/-- Strict lexicographic order on character lists: the model of the `BINARY`
collation SQLite uses to compare `TEXT` values in `ORDER BY`. -/
def strLtb : List Char → List Char → Bool
  | [], [] => false
  | [], _ :: _ => true
  | _ :: _, [] => false
  | a :: as, b :: bs => decide (a < b) || (a == b && strLtb as bs)

theorem strLtb_irrefl (a : List Char) : strLtb a a = false := by
  induction a with
  | nil => rfl
  | cons x l ih => simp [strLtb, ih, lt_irrefl]

theorem strLtb_trans {a b c : List Char} (h1 : strLtb a b = true) (h2 : strLtb b c = true) :
    strLtb a c = true := by
  induction a generalizing b c with
  | nil =>
    cases b with
    | nil => exact absurd h1 (by simp [strLtb])
    | cons y bs =>
      cases c with
      | nil => exact absurd h2 (by simp [strLtb])
      | cons z cs => rfl
  | cons x as ih =>
    cases b with
    | nil => exact absurd h1 (by simp [strLtb])
    | cons y bs =>
      cases c with
      | nil => exact absurd h2 (by simp [strLtb])
      | cons z cs =>
        simp only [strLtb, Bool.or_eq_true, Bool.and_eq_true, decide_eq_true_eq,
          beq_iff_eq] at h1 h2 ⊢
        rcases h1 with h1 | h1
        · rcases h2 with h2 | h2
          · exact Or.inl (lt_trans h1 h2)
          · exact Or.inl (by rw [← h2.1]; exact h1)
        · rcases h2 with h2 | h2
          · exact Or.inl (by rw [h1.1]; exact h2)
          · exact Or.inr ⟨h1.1.trans h2.1, ih h1.2 h2.2⟩

theorem strLtb_trichotomy (a b : List Char) :
    strLtb a b = true ∨ a = b ∨ strLtb b a = true := by
  induction a generalizing b with
  | nil =>
    cases b with
    | nil => exact Or.inr (Or.inl rfl)
    | cons y bs => exact Or.inl rfl
  | cons x as ih =>
    cases b with
    | nil => exact Or.inr (Or.inr rfl)
    | cons y bs =>
      rcases lt_trichotomy x y with h | h | h
      · exact Or.inl (by simp [strLtb, h])
      · subst h
        rcases ih bs with h2 | h2 | h2
        · exact Or.inl (by simp [strLtb, h2])
        · exact Or.inr (Or.inl (by rw [h2]))
        · exact Or.inr (Or.inr (by simp [strLtb, h2]))
      · exact Or.inr (Or.inr (by simp [strLtb, h]))

theorem strLtb_asymm {a b : List Char} (h : strLtb a b = true) : strLtb b a = false := by
  cases hb : strLtb b a with
  | false => rfl
  | true =>
    have hf := strLtb_trans h hb
    rw [strLtb_irrefl] at hf
    exact absurd hf Bool.false_ne_true

/-- Strict `TEXT` comparison, as used by the `ORDER BY` clauses. -/
def strLt (a b : String) : Prop := strLtb a.data b.data = true

/-- Reflexive `TEXT` comparison. -/
def strLe (a b : String) : Prop := strLtb b.data a.data = false

instance strLt.instDecidable : DecidableRel strLt :=
  fun _ _ => inferInstanceAs (Decidable (_ = true))

instance strLe.instDecidable : DecidableRel strLe :=
  fun _ _ => inferInstanceAs (Decidable (_ = false))

theorem strData_inj {a b : String} (h : a.data = b.data) : a = b := by
  cases a
  cases b
  exact congrArg String.mk h

theorem strLe_iff {a b : String} : strLe a b ↔ (strLt a b ∨ a = b) := by
  constructor
  · intro h
    rcases strLtb_trichotomy a.data b.data with h1 | h1 | h1
    · exact Or.inl h1
    · exact Or.inr (strData_inj h1)
    · exact absurd (h.symm.trans h1) Bool.false_ne_true
  · intro h
    rcases h with h | h
    · exact strLtb_asymm h
    · rw [h]
      exact strLtb_irrefl _

theorem strLe_total (a b : String) : strLe a b ∨ strLe b a := by
  cases h : strLtb b.data a.data with
  | false => exact Or.inl h
  | true => exact Or.inr (strLtb_asymm h)

theorem strLt_trans {a b c : String} (h1 : strLt a b) (h2 : strLt b c) : strLt a c :=
  strLtb_trans h1 h2

theorem strLe_trans {a b c : String} (h1 : strLe a b) (h2 : strLe b c) : strLe a c := by
  rcases strLe_iff.mp h1 with h1 | h1
  · rcases strLe_iff.mp h2 with h2 | h2
    · exact strLe_iff.mpr (Or.inl (strLt_trans h1 h2))
    · exact strLe_iff.mpr (Or.inl (h2 ▸ h1))
  · rcases strLe_iff.mp h2 with h2 | h2
    · exact strLe_iff.mpr (Or.inl (h1 ▸ h2))
    · exact strLe_iff.mpr (Or.inr (h1.trans h2))

/-- Order on the nullable `city` column: SQLite sorts `NULL` before every
non-`NULL` `TEXT` value in ascending order. -/
def cityLt : Option String → Option String → Prop
  | none, none => False
  | none, some _ => True
  | some _, none => False
  | some a, some b => strLt a b

instance cityLt.instDecidable : DecidableRel cityLt := fun a b =>
  match a, b with
  | none, none => isFalse (fun h => h)
  | none, some _ => isTrue trivial
  | some _, none => isFalse (fun h => h)
  | some x, some y => inferInstanceAs (Decidable (strLt x y))

theorem cityLt_trans {a b c : Option String} (h1 : cityLt a b) (h2 : cityLt b c) :
    cityLt a c := by
  match a, b, c with
  | none, none, _ => exact h1.elim
  | none, some _, none => exact h2.elim
  | none, some _, some _ => exact trivial
  | some _, none, _ => exact h1.elim
  | some _, some _, none => exact h2.elim
  | some x, some y, some z => exact strLt_trans h1 h2

theorem cityLt_trichotomy (a b : Option String) : cityLt a b ∨ a = b ∨ cityLt b a := by
  match a, b with
  | none, none => exact Or.inr (Or.inl rfl)
  | none, some _ => exact Or.inl trivial
  | some _, none => exact Or.inr (Or.inr trivial)
  | some x, some y =>
    rcases strLtb_trichotomy x.data y.data with h | h | h
    · exact Or.inl h
    · exact Or.inr (Or.inl (congrArg some (strData_inj h)))
    · exact Or.inr (Or.inr h)

theorem cityLt_none_right {a : Option String} (h : cityLt a none) : False := by
  match a with
  | none => exact h
  | some _ => exact h

/-- The conditional summand `CASE WHEN o.status = PAID THEN o.amount ELSE 0 END`
shared by all four catalog queries. -/
def paidPart (o : Order) : Rat := if o.status = "PAID" then o.amount else 0

/-- The order rows joined to customer `cid` by `ON o.customer_id = c.customer_id`. -/
def customerOrders (db : DB) (cid : Nat) : List Order :=
  db.orders.filter (fun o => o.customer_id == cid)

/-- `SUM(CASE WHEN o.status = PAID THEN o.amount ELSE 0 END)` over the group of
customer `cid`: the conditional sum over all of that customer's orders. -/
def paidRevenue (db : DB) (cid : Nat) : Rat :=
  (customerOrders db cid).foldl (fun acc o => acc + paidPart o) 0

/-- Whether the inner join produces at least one row for this customer id. -/
def hasOrder (db : DB) (cid : Nat) : Bool :=
  db.orders.any (fun o => o.customer_id == cid)

/-- The customers surviving `FROM customers c JOIN orders o ON o.customer_id =
c.customer_id`: since `customer_id` is the primary key, `GROUP BY c.customer_id`
yields exactly one group per customer owning at least one order. -/
def activeCustomers (db : DB) : List Customer :=
  db.customers.filter (fun c => hasOrder db c.customer_id)

/-- The selected column `c.first_name || 1Q1 || c.last_name`. -/
def fullName (c : Customer) : String := c.first_name ++ " " ++ c.last_name

/-- An output row of `SQL[top_customers]`. -/
structure TCRow where
  customer_id : Nat
  customer : String
  city : Option String
  revenue : Rat
deriving DecidableEq, Repr

/-- The `top_customers` output row for the group of customer `c`. -/
def tcRow (db : DB) (c : Customer) : TCRow :=
  TCRow.mk c.customer_id (fullName c) c.city (paidRevenue db c.customer_id)

/-- The `ORDER BY revenue DESC` relation of `top_customers`. -/
def tcLe (a b : TCRow) : Prop := b.revenue ≤ a.revenue

instance tcLe.instDecidable : DecidableRel tcLe :=
  fun a b => inferInstanceAs (Decidable (b.revenue ≤ a.revenue))

instance tcLe.instIsTotal : IsTotal TCRow tcLe := ⟨fun a b => le_total b.revenue a.revenue⟩

instance tcLe.instIsTrans : IsTrans TCRow tcLe := ⟨fun _ _ _ h1 h2 => le_trans h2 h1⟩

/-- `SQL[top_customers]` (src/main.py lines 130-141): group the joined rows per
customer, compute the conditional PAID sum, keep groups with `revenue > 0`
(`HAVING`), order by revenue descending, return at most 10 rows (`LIMIT 10`). -/
def top_customers (db : DB) : List TCRow :=
  (List.insertionSort tcLe
    (((activeCustomers db).map (tcRow db)).filter (fun row => decide (0 < row.revenue)))).take 10

theorem mem_top_customers {db : DB} {row : TCRow} (h : row ∈ top_customers db) :
    ∃ c ∈ activeCustomers db, row = tcRow db c ∧ 0 < row.revenue := by
  have h1 := List.mem_of_mem_take h
  rw [List.mem_insertionSort] at h1
  have h2 := List.mem_filter.mp h1
  rcases List.mem_map.mp h2.1 with ⟨c, hc, hrow⟩
  exact ⟨c, hc, hrow.symm, of_decide_eq_true h2.2⟩

/-- Demo state for C1: customer 1 has a PAID order of 100 and a larger
CANCELLED order of 500; customer 2 has a PAID order of 50 and a larger
CANCELLED order of 999. -/
def exDb1 : DB :=
  DB.mk
    [Customer.mk 1 "Ana" "Soto" "user1@example.com" (some "Santiago") "2023-01-01",
     Customer.mk 2 "Luis" "Perez" "user2@example.com" (some "Santiago") "2023-01-02"]
    [Order.mk 1 1 "2024-01-05" "Books" 100 "PAID",
     Order.mk 2 1 "2024-01-06" "Books" 500 "CANCELLED",
     Order.mk 3 2 "2024-01-07" "Home" 50 "PAID",
     Order.mk 4 2 "2024-01-08" "Home" 999 "CANCELLED"]

/-- C1: every `top_customers` row carries as `revenue` the conditional PAID sum
over the orders of its customer (CANCELLED/REFUNDED orders contribute 0 inside
the sum, they are not excluded by the join), only customers with at least one
order and `revenue > 0` appear, rows are ordered by revenue descending, at most
10 rows are returned; on the concrete state `exDb1` the customer with PAID sum
100 ranks first ahead of the one with PAID sum 50, the larger CANCELLED
amounts being ignored. -/
theorem top_customers_spec :
    (∀ db : DB, ∀ row ∈ top_customers db,
      row.revenue = paidRevenue db row.customer_id ∧ 0 < row.revenue ∧
        hasOrder db row.customer_id = true) ∧
    (∀ db : DB, List.Sorted tcLe (top_customers db) ∧ (top_customers db).length ≤ 10) ∧
    ((top_customers exDb1).map (fun r => (r.customer_id, r.revenue)) = [(1, 100), (2, 50)]) := by
  refine ⟨?_, ?_, by
    norm_num +decide [top_customers, activeCustomers, hasOrder, tcRow, paidRevenue, customerOrders,
      paidPart, fullName, exDb1, tcLe, List.insertionSort, List.orderedInsert]⟩
  · intro db row hrow
    rcases mem_top_customers hrow with ⟨c, hc, hrc, hpos⟩
    have hco : hasOrder db c.customer_id = true := (List.mem_filter.mp hc).2
    subst hrc
    exact ⟨rfl, hpos, hco⟩
  · intro db
    exact ⟨List.Pairwise.sublist (List.take_sublist _ _) (List.sorted_insertionSort tcLe _),
      List.length_take_le _ _⟩

/-- C1 witness: the first-ranked concrete row of `top_customers exDb1` has the
conditional-sum revenue 100, positive, and its customer owns an order. -/
theorem top_customers_spec_witness :
    (TCRow.mk 1 "Ana Soto" (some "Santiago") 100 ∈ top_customers exDb1) ∧
    ((TCRow.mk 1 "Ana Soto" (some "Santiago") 100).revenue =
        paidRevenue exDb1 (TCRow.mk 1 "Ana Soto" (some "Santiago") 100).customer_id ∧
      0 < (TCRow.mk 1 "Ana Soto" (some "Santiago") 100).revenue ∧
      hasOrder exDb1 (TCRow.mk 1 "Ana Soto" (some "Santiago") 100).customer_id = true) :=
  ⟨by
    norm_num +decide [top_customers, activeCustomers, hasOrder, tcRow, paidRevenue, customerOrders,
      paidPart, fullName, exDb1, tcLe, List.insertionSort, List.orderedInsert],
    top_customers_spec.1 exDb1 (TCRow.mk 1 "Ana Soto" (some "Santiago") 100) (by
    norm_num +decide [top_customers, activeCustomers, hasOrder, tcRow, paidRevenue, customerOrders,
      paidPart, fullName, exDb1, tcLe, List.insertionSort, List.orderedInsert])⟩

/-- The month key `strftime` with format `%Y-%m` computes from an ISO date
string: its first seven characters. -/
def ymOf (d : String) : String := String.mk (d.data.take 7)

/-- An output row of `SQL[monthly_revenue]`. -/
structure MRRow where
  ym : String
  revenue : Rat
deriving DecidableEq, Repr

/-- The `GROUP BY ym` keys: the distinct months of the existing order rows
(of any status). -/
def monthKeys (db : DB) : List String :=
  (db.orders.map (fun o => ymOf o.order_date)).dedup

/-- The conditional PAID sum over one month group. -/
def monthRevenue (db : DB) (m : String) : Rat :=
  (db.orders.filter (fun o => ymOf o.order_date == m)).foldl (fun acc o => acc + paidPart o) 0

/-- The `ORDER BY ym` (ascending) relation of `monthly_revenue`. -/
def mrLe (a b : MRRow) : Prop := strLe a.ym b.ym

instance mrLe.instDecidable : DecidableRel mrLe :=
  fun a b => inferInstanceAs (Decidable (strLe a.ym b.ym))

instance mrLe.instIsTotal : IsTotal MRRow mrLe := ⟨fun a b => strLe_total a.ym b.ym⟩

instance mrLe.instIsTrans : IsTrans MRRow mrLe := ⟨fun _ _ _ h1 h2 => strLe_trans h1 h2⟩

/-- `SQL[monthly_revenue]` (src/main.py lines 142-148): bucket all orders by
calendar month of `order_date`, sum the conditional PAID amounts per bucket,
order by month ascending. -/
def monthly_revenue (db : DB) : List MRRow :=
  List.insertionSort mrLe ((monthKeys db).map (fun m => MRRow.mk m (monthRevenue db m)))

theorem monthly_revenue_map_ym (db : DB) :
    ((monthKeys db).map (fun m => MRRow.mk m (monthRevenue db m))).map MRRow.ym =
      monthKeys db := by
  rw [List.map_map]
  exact List.map_id _

/-- Demo state for C3: exactly one PAID order of 10 on 2024-01-15 and one
CANCELLED order of 20 on 2024-01-20. -/
def exDb3 : DB :=
  DB.mk
    [Customer.mk 1 "Ana" "Soto" "user1@example.com" (some "Santiago") "2023-01-01"]
    [Order.mk 1 1 "2024-01-15" "Books" 10 "PAID",
     Order.mk 2 1 "2024-01-20" "Books" 20 "CANCELLED"]

/-- C3: `monthly_revenue` has one row per distinct month that contains at least
one order row of any status (and no other rows), each row carries the
conditional PAID sum of its month, rows are sorted by month ascending; on the
concrete state `exDb3` (orders 2024-01-15/10/PAID and 2024-01-20/20/CANCELLED)
the result is the single row (2024-01, 10). -/
theorem monthly_revenue_spec :
    (∀ db : DB, ∀ m : String,
      (∃ row ∈ monthly_revenue db, row.ym = m) ↔ (∃ o ∈ db.orders, ymOf o.order_date = m)) ∧
    (∀ db : DB, ∀ row ∈ monthly_revenue db, row.revenue = monthRevenue db row.ym) ∧
    (∀ db : DB, ((monthly_revenue db).map MRRow.ym).Nodup ∧
      List.Sorted mrLe (monthly_revenue db)) ∧
    (monthly_revenue exDb3 = [MRRow.mk "2024-01" 10]) := by
  refine ⟨?_, ?_, ?_, by
    norm_num +decide [monthly_revenue, monthKeys, monthRevenue, ymOf, paidPart, mrLe, exDb3,
      List.insertionSort, List.orderedInsert, List.dedup]⟩
  · intro db m
    constructor
    · rintro ⟨row, hrow, hm⟩
      rw [monthly_revenue, List.mem_insertionSort] at hrow
      rcases List.mem_map.mp hrow with ⟨m1, hm1, hrow1⟩
      rcases List.mem_map.mp (List.mem_dedup.mp hm1) with ⟨o, ho, hom⟩
      refine ⟨o, ho, ?_⟩
      rw [hom, ← hm, ← hrow1]
    · rintro ⟨o, ho, hom⟩
      refine ⟨MRRow.mk m (monthRevenue db m), ?_, rfl⟩
      rw [monthly_revenue, List.mem_insertionSort]
      exact List.mem_map.mpr ⟨m, List.mem_dedup.mpr (List.mem_map.mpr ⟨o, ho, hom⟩), rfl⟩
  · intro db row hrow
    rw [monthly_revenue, List.mem_insertionSort] at hrow
    rcases List.mem_map.mp hrow with ⟨m1, _, hrow1⟩
    rw [← hrow1]
  · intro db
    constructor
    · have hperm := (List.perm_insertionSort mrLe
        ((monthKeys db).map (fun m => MRRow.mk m (monthRevenue db m)))).map MRRow.ym
      rw [monthly_revenue, hperm.nodup_iff, monthly_revenue_map_ym]
      exact List.nodup_dedup _
    · exact List.sorted_insertionSort mrLe _

/-- C3 witness: the concrete month row of `exDb3` carries the conditional PAID
sum of its month. -/
theorem monthly_revenue_spec_witness :
    (MRRow.mk "2024-01" 10 ∈ monthly_revenue exDb3) ∧
    (MRRow.mk "2024-01" 10).revenue = monthRevenue exDb3 (MRRow.mk "2024-01" 10).ym :=
  ⟨by
    norm_num +decide [monthly_revenue, monthKeys, monthRevenue, ymOf, paidPart, mrLe, exDb3,
      List.insertionSort, List.orderedInsert, List.dedup],
    monthly_revenue_spec.2.1 exDb3 (MRRow.mk "2024-01" 10) (by
    norm_num +decide [monthly_revenue, monthKeys, monthRevenue, ymOf, paidPart, mrLe, exDb3,
      List.insertionSort, List.orderedInsert, List.dedup])⟩

/-- The joined rows of `FROM customers c JOIN orders o ON o.customer_id =
c.customer_id`: one pair per customer row and matching order row. -/
def joinRows (db : DB) : List (Customer × Order) :=
  db.customers.flatMap (fun c => (customerOrders db c.customer_id).map (fun o => (c, o)))

/-- An output row of `SQL[category_city_matrix]`. -/
structure CCRow where
  city : Option String
  category : String
  revenue : Rat
deriving DecidableEq, Repr

/-- The `GROUP BY c.city, o.category` keys of the joined rows; a `NULL` city
forms a group of its own, per key. -/
def ccKeys (db : DB) : List (Option String × String) :=
  ((joinRows db).map (fun p => (p.1.city, p.2.category))).dedup

/-- The conditional PAID sum over one (city, category) group. -/
def ccRevenue (db : DB) (k : Option String × String) : Rat :=
  ((joinRows db).filter (fun p => (p.1.city, p.2.category) == k)).foldl
    (fun acc p => acc + paidPart p.2) 0

/-- The `ORDER BY c.city, o.category` relation; SQLite sorts the `NULL` city
before all named cities. -/
def ccLe (a b : CCRow) : Prop :=
  cityLt a.city b.city ∨ (a.city = b.city ∧ strLe a.category b.category)

instance ccLe.instDecidable : DecidableRel ccLe :=
  fun a b => inferInstanceAs (Decidable (_ ∨ _))

instance ccLe.instIsTotal : IsTotal CCRow ccLe := ⟨by
  intro a b
  rcases cityLt_trichotomy a.city b.city with h | h | h
  · exact Or.inl (Or.inl h)
  · rcases strLe_total a.category b.category with h2 | h2
    · exact Or.inl (Or.inr ⟨h, h2⟩)
    · exact Or.inr (Or.inr ⟨h.symm, h2⟩)
  · exact Or.inr (Or.inl h)⟩

instance ccLe.instIsTrans : IsTrans CCRow ccLe := ⟨by
  intro _ _ _ h1 h2
  rcases h1 with h1 | h1
  · rcases h2 with h2 | h2
    · exact Or.inl (cityLt_trans h1 h2)
    · exact Or.inl (by rw [← h2.1]; exact h1)
  · rcases h2 with h2 | h2
    · exact Or.inl (by rw [h1.1]; exact h2)
    · exact Or.inr ⟨h1.1.trans h2.1, strLe_trans h1.2 h2.2⟩⟩

/-- `SQL[category_city_matrix]` (src/main.py lines 149-156): cross-tabulate the
conditional PAID sum by (city, category) over the joined rows, ordered by city
then category. -/
def category_city_matrix (db : DB) : List CCRow :=
  List.insertionSort ccLe ((ccKeys db).map (fun k => CCRow.mk k.1 k.2 (ccRevenue db k)))

theorem category_city_matrix_keys (db : DB) :
    (((ccKeys db).map (fun k => CCRow.mk k.1 k.2 (ccRevenue db k))).map
      (fun r => (r.city, r.category))) = ccKeys db := by
  rw [List.map_map]
  exact List.map_id _

/-- Demo state for C9: customer 1 has no city (`NULL`) and a PAID Books order;
customer 2 lives in Antofagasta (alphabetically first among named cities) and
also has a PAID Books order. -/
def exDb9 : DB :=
  DB.mk
    [Customer.mk 1 "Ana" "Soto" "user1@example.com" none "2023-01-01",
     Customer.mk 2 "Luis" "Perez" "user2@example.com" (some "Antofagasta") "2023-01-02"]
    [Order.mk 1 1 "2024-01-05" "Books" 30 "PAID",
     Order.mk 2 2 "2024-01-06" "Books" 40 "PAID"]

/-- C9: a customer without a city is not excluded from `category_city_matrix`:
each category it ordered in yields a row whose `city` column is `NULL` carrying
the conditional PAID sum of the `NULL`-city group of that category; there is at
most one row per (city, category) pair; and the output is sorted by city then
category with the `NULL`-city rows before all named cities (whenever a later
row has a `NULL` city, so do all earlier rows). -/
theorem category_city_matrix_null_city (db : DB) (c : Customer) (o : Order)
    (hc : c ∈ db.customers) (hcity : c.city = none)
    (ho : o ∈ db.orders) (hoc : o.customer_id = c.customer_id) :
    (∃ row ∈ category_city_matrix db, row.city = none ∧ row.category = o.category ∧
      row.revenue = ccRevenue db (none, o.category)) ∧
    ((category_city_matrix db).map (fun r => (r.city, r.category))).Nodup ∧
    List.Sorted ccLe (category_city_matrix db) ∧
    (category_city_matrix db).Pairwise (fun a b => b.city = none → a.city = none) := by
  refine ⟨?_, ?_, List.sorted_insertionSort ccLe _, ?_⟩
  · have hpair : (c, o) ∈ joinRows db := by
      rw [joinRows, List.mem_flatMap]
      refine ⟨c, hc, List.mem_map.mpr ⟨o, ?_, rfl⟩⟩
      rw [customerOrders, List.mem_filter]
      exact ⟨ho, by rw [hoc]; exact beq_self_eq_true _⟩
    have hkey : (none, o.category) ∈ ccKeys db := by
      rw [ccKeys, List.mem_dedup]
      exact List.mem_map.mpr ⟨(c, o), hpair, by rw [hcity]⟩
    refine ⟨CCRow.mk none o.category (ccRevenue db (none, o.category)), ?_, rfl, rfl, rfl⟩
    rw [category_city_matrix, List.mem_insertionSort]
    exact List.mem_map.mpr ⟨(none, o.category), hkey, rfl⟩
  · have hperm := (List.perm_insertionSort ccLe
      ((ccKeys db).map (fun k => CCRow.mk k.1 k.2 (ccRevenue db k)))).map
      (fun r : CCRow => (r.city, r.category))
    rw [category_city_matrix, hperm.nodup_iff, category_city_matrix_keys]
    exact List.nodup_dedup _
  · apply List.Pairwise.imp ?_ (List.sorted_insertionSort ccLe _)
    intro a b hab hbnone
    rcases hab with hab | hab
    · rw [hbnone] at hab
      exact absurd hab cityLt_none_right
    · exact hab.1.trans hbnone

/-- C9 witness: in the concrete state `exDb9` the `NULL`-city customer's Books
revenue appears in a `NULL`-city row, and the output satisfies the uniqueness,
sortedness and `NULL`-first properties. -/
theorem category_city_matrix_null_city_witness :
    ((Customer.mk 1 "Ana" "Soto" "user1@example.com" none "2023-01-01") ∈ exDb9.customers) ∧
    ((Customer.mk 1 "Ana" "Soto" "user1@example.com" none "2023-01-01").city = none) ∧
    ((Order.mk 1 1 "2024-01-05" "Books" 30 "PAID") ∈ exDb9.orders) ∧
    ((Order.mk 1 1 "2024-01-05" "Books" 30 "PAID").customer_id =
      (Customer.mk 1 "Ana" "Soto" "user1@example.com" none "2023-01-01").customer_id) ∧
    ((∃ row ∈ category_city_matrix exDb9, row.city = none ∧
        row.category = (Order.mk 1 1 "2024-01-05" "Books" 30 "PAID").category ∧
        row.revenue = ccRevenue exDb9
          (none, (Order.mk 1 1 "2024-01-05" "Books" 30 "PAID").category)) ∧
      ((category_city_matrix exDb9).map (fun r => (r.city, r.category))).Nodup ∧
      List.Sorted ccLe (category_city_matrix exDb9) ∧
      (category_city_matrix exDb9).Pairwise (fun a b => b.city = none → a.city = none)) :=
  ⟨by decide, rfl, by decide, rfl,
    category_city_matrix_null_city exDb9
      (Customer.mk 1 "Ana" "Soto" "user1@example.com" none "2023-01-01")
      (Order.mk 1 1 "2024-01-05" "Books" 30 "PAID") (by decide) rfl (by decide) rfl⟩

/-- Attaches `ROW_NUMBER()` values `n, n+1, ...` to a list already sorted by
the window's `ORDER BY`. -/
def numberFrom {α : Type} (n : Nat) : List α → List (α × Nat)
  | [] => []
  | a :: l => (a, n) :: numberFrom (n + 1) l

theorem numberFrom_map_fst {α : Type} (n : Nat) (l : List α) :
    (numberFrom n l).map Prod.fst = l := by
  induction l generalizing n with
  | nil => rfl
  | cons a l ih => simp [numberFrom, ih]

theorem numberFrom_map_snd {α : Type} (n : Nat) (l : List α) :
    (numberFrom n l).map Prod.snd = List.range' n l.length := by
  induction l generalizing n with
  | nil => rfl
  | cons a l ih => simp [numberFrom, ih, List.range']

theorem numberFrom_mem {α : Type} {n : Nat} {l : List α} {p : α × Nat}
    (hp : p ∈ numberFrom n l) : p.1 ∈ l ∧ n ≤ p.2 := by
  induction l generalizing n with
  | nil => cases hp
  | cons a l ih =>
    rcases List.mem_cons.mp hp with h | h
    · rw [h]
      exact ⟨List.mem_cons_self a l, le_refl n⟩
    · rcases ih h with ⟨h1, h2⟩
      exact ⟨List.mem_cons_of_mem a h1, le_trans (Nat.le_succ n) h2⟩

theorem numberFrom_mem_of_mem {α : Type} {l : List α} {a : α} (n : Nat) (ha : a ∈ l) :
    ∃ p ∈ numberFrom n l, p.1 = a := by
  have hm : a ∈ (numberFrom n l).map Prod.fst := by rw [numberFrom_map_fst]; exact ha
  rcases List.mem_map.mp hm with ⟨p, hp, hpa⟩
  exact ⟨p, hp, hpa⟩

theorem numberFrom_pairwise {α : Type} {R : α → α → Prop} {l : List α} (n : Nat)
    (h : l.Pairwise R) :
    (numberFrom n l).Pairwise (fun p q => R p.1 q.1 ∧ p.2 < q.2) := by
  induction l generalizing n with
  | nil => exact List.Pairwise.nil
  | cons a l ih =>
    rcases List.pairwise_cons.mp h with ⟨hhead, htail⟩
    refine List.pairwise_cons.mpr ⟨?_, ih (n + 1) htail⟩
    intro q hq
    rcases numberFrom_mem hq with ⟨h1, h2⟩
    exact ⟨hhead q.1 h1, lt_of_lt_of_le (Nat.lt_succ_self n) h2⟩

theorem numberFrom_filter_gt {α : Type} {m n : Nat} (l : List α) (hnm : m < n) :
    (numberFrom n l).filter (fun p => decide (p.2 ≤ m)) = [] := by
  induction l generalizing n with
  | nil => rfl
  | cons a l ih =>
    rw [numberFrom, List.filter_cons]
    have hc : decide ((a, n).2 ≤ m) = false := decide_eq_false (Nat.not_le.mpr hnm)
    rw [hc]
    simp only [Bool.false_eq_true, if_false]
    exact ih (lt_trans hnm (Nat.lt_succ_self n))

theorem numberFrom_filter_le {α : Type} (m n : Nat) (l : List α) :
    (numberFrom n l).filter (fun p => decide (p.2 ≤ m)) =
      numberFrom n (l.take (m + 1 - n)) := by
  induction l generalizing n with
  | nil => simp [numberFrom]
  | cons a l ih =>
    by_cases hnm : n ≤ m
    · have htake : m + 1 - n = (m - n) + 1 := by omega
      rw [numberFrom, List.filter_cons, htake, List.take_succ_cons, numberFrom]
      have hc : decide ((a, n).2 ≤ m) = true := decide_eq_true hnm
      rw [hc]
      simp only [if_true]
      have harg : m + 1 - (n + 1) = m - n := by omega
      rw [ih (n + 1), harg]
    · have htake : m + 1 - n = 0 := by omega
      rw [htake, List.take_zero, numberFrom]
      exact numberFrom_filter_gt (a :: l) (Nat.not_le.mp hnm)

/-- One grouped row of the inner `SELECT` of `SQL[window_rank_in_city]` before
`ROW_NUMBER` assignment: group key `(c.city, c.customer_id)` (the primary key
makes one group per customer with orders), the selected name, and the
conditional PAID sum. -/
structure CityAgg where
  city : Option String
  customer_id : Nat
  customer : String
  revenue : Rat
deriving DecidableEq, Repr

/-- The grouped rows of one city partition, in customers-table order. -/
def cityAgg (db : DB) (ct : Option String) : List CityAgg :=
  ((activeCustomers db).filter (fun c => c.city == ct)).map
    (fun c => CityAgg.mk c.city c.customer_id (fullName c) (paidRevenue db c.customer_id))

/-- The window `ORDER BY`: conditional PAID sum descending. -/
def aggLe (a b : CityAgg) : Prop := b.revenue ≤ a.revenue

instance aggLe.instDecidable : DecidableRel aggLe :=
  fun a b => inferInstanceAs (Decidable (b.revenue ≤ a.revenue))

instance aggLe.instIsTotal : IsTotal CityAgg aggLe := ⟨fun a b => le_total b.revenue a.revenue⟩

instance aggLe.instIsTrans : IsTrans CityAgg aggLe := ⟨fun _ _ _ h1 h2 => le_trans h2 h1⟩

/-- A ranked row of the inner `SELECT`, with its `ROW_NUMBER` value `rn`. -/
structure RankedRow where
  city : Option String
  customer_id : Nat
  customer : String
  revenue : Rat
  rn : Nat
deriving DecidableEq, Repr

/-- Pairs a grouped row with its assigned row number. -/
def rrOfPair (p : CityAgg × Nat) : RankedRow :=
  RankedRow.mk p.1.city p.1.customer_id p.1.customer p.1.revenue p.2

/-- The ranked rows of one city partition: `ROW_NUMBER() OVER (PARTITION BY
c.city ORDER BY SUM(...) DESC)` assigns 1, 2, ... along the partition sorted
by revenue descending (ties in unspecified, here fixed, order). -/
def rankCity (db : DB) (ct : Option String) : List RankedRow :=
  (numberFrom 1 (List.insertionSort aggLe (cityAgg db ct))).map rrOfPair

/-- The rows of one city partition surviving the outer `WHERE rn <= 3`. -/
def cityTop (db : DB) (ct : Option String) : List RankedRow :=
  (rankCity db ct).filter (fun r => decide (r.rn ≤ 3))

/-- The `PARTITION BY c.city` keys; the `NULL` city is one partition. -/
def cityList (db : DB) : List (Option String) :=
  ((activeCustomers db).map (fun c => c.city)).dedup

/-- An output row of `SQL[window_rank_in_city]`; the outer `SELECT` keeps only
city, concatenated name, revenue and rank. -/
structure WRRow where
  city : Option String
  customer : String
  revenue : Rat
  rn : Nat
deriving DecidableEq, Repr

/-- The outer `ORDER BY city, rn` relation on ranked rows. -/
def wrLe (a b : RankedRow) : Prop :=
  cityLt a.city b.city ∨ (a.city = b.city ∧ a.rn ≤ b.rn)

instance wrLe.instDecidable : DecidableRel wrLe :=
  fun a b => inferInstanceAs (Decidable (_ ∨ _))

instance wrLe.instIsTotal : IsTotal RankedRow wrLe := ⟨by
  intro a b
  rcases cityLt_trichotomy a.city b.city with h | h | h
  · exact Or.inl (Or.inl h)
  · rcases Nat.le_total a.rn b.rn with h2 | h2
    · exact Or.inl (Or.inr ⟨h, h2⟩)
    · exact Or.inr (Or.inr ⟨h.symm, h2⟩)
  · exact Or.inr (Or.inl h)⟩

instance wrLe.instIsTrans : IsTrans RankedRow wrLe := ⟨by
  intro _ _ _ h1 h2
  rcases h1 with h1 | h1
  · rcases h2 with h2 | h2
    · exact Or.inl (cityLt_trans h1 h2)
    · exact Or.inl (by rw [← h2.1]; exact h1)
  · rcases h2 with h2 | h2
    · exact Or.inl (by rw [h1.1]; exact h2)
    · exact Or.inr ⟨h1.1.trans h2.1, le_trans h1.2 h2.2⟩⟩

/-- The outer `ORDER BY city, rn` relation on output rows. -/
def wrOutLe (a b : WRRow) : Prop :=
  cityLt a.city b.city ∨ (a.city = b.city ∧ a.rn ≤ b.rn)

/-- `SQL[window_rank_in_city]` (src/main.py lines 158-170): rank the customers
of each city partition by conditional PAID sum descending with row-number
semantics, keep ranks at most 3, order the result by city then rank. -/
def window_rank_in_city (db : DB) : List WRRow :=
  (List.insertionSort wrLe ((cityList db).flatMap (fun ct => cityTop db ct))).map
    (fun r => WRRow.mk r.city r.customer r.revenue r.rn)

theorem numberFrom_length {α : Type} (n : Nat) (l : List α) :
    (numberFrom n l).length = l.length := by
  induction l generalizing n with
  | nil => rfl
  | cons a l ih => simp [numberFrom, ih]

theorem cityTop_eq (db : DB) (ct : Option String) :
    cityTop db ct =
      (numberFrom 1 ((List.insertionSort aggLe (cityAgg db ct)).take 3)).map rrOfPair := by
  rw [cityTop, rankCity, List.filter_map]
  congr 1
  have hcomp : ((fun r : RankedRow => decide (r.rn ≤ 3)) ∘ rrOfPair) =
      (fun p : CityAgg × Nat => decide (p.2 ≤ 3)) := rfl
  rw [hcomp, numberFrom_filter_le]

/-- Demo state for C2: four customers in one city with PAID revenues
40, 30, 20, 10. -/
def exDb2 : DB :=
  DB.mk
    [Customer.mk 1 "Ana" "Soto" "user1@example.com" (some "Santiago") "2023-01-01",
     Customer.mk 2 "Luis" "Perez" "user2@example.com" (some "Santiago") "2023-01-02",
     Customer.mk 3 "Carla" "Rojas" "user3@example.com" (some "Santiago") "2023-01-03",
     Customer.mk 4 "Diego" "Silva" "user4@example.com" (some "Santiago") "2023-01-04"]
    [Order.mk 1 1 "2024-01-01" "Books" 40 "PAID",
     Order.mk 2 2 "2024-01-02" "Books" 30 "PAID",
     Order.mk 3 3 "2024-01-03" "Books" 20 "PAID",
     Order.mk 4 4 "2024-01-04" "Books" 10 "PAID"]

/-- C2: every output row of `window_rank_in_city` has a rank in 1..3; the
output is ordered by city then rank; per city the retained ranks are exactly
the consecutive integers 1, 2, ... up to `min 3 k` (`k` the number of ranked
customers of the city), with distinct ranks along a partition whose revenues
are non-increasing (row-number semantics); on the concrete state `exDb2` (four
customers of one city with PAID revenues 40, 30, 20, 10) exactly the three
rows with ranks 1, 2, 3 survive and the fourth customer is excluded. -/
theorem window_rank_in_city_spec :
    (∀ db : DB, ∀ row ∈ window_rank_in_city db, 1 ≤ row.rn ∧ row.rn ≤ 3) ∧
    (∀ db : DB, List.Sorted wrOutLe (window_rank_in_city db)) ∧
    (∀ db : DB, ∀ ct : Option String,
      (cityTop db ct).map (fun r => r.rn) =
        List.range' 1 (min 3 (rankCity db ct).length) ∧
      (rankCity db ct).Pairwise (fun a b => b.revenue ≤ a.revenue ∧ a.rn < b.rn)) ∧
    (window_rank_in_city exDb2 =
      [WRRow.mk (some "Santiago") "Ana Soto" 40 1,
       WRRow.mk (some "Santiago") "Luis Perez" 30 2,
       WRRow.mk (some "Santiago") "Carla Rojas" 20 3]) := by
  refine ⟨?_, ?_, ?_, by
    norm_num +decide [window_rank_in_city, cityList, cityTop, rankCity, cityAgg,
      activeCustomers, hasOrder, paidRevenue, customerOrders, paidPart, fullName, rrOfPair,
      numberFrom, aggLe, wrLe, exDb2, List.insertionSort, List.orderedInsert, List.dedup,
      cityLt, strLt, strLtb]⟩
  · intro db row hrow
    rw [window_rank_in_city] at hrow
    rcases List.mem_map.mp hrow with ⟨r, hr, hrow1⟩
    rw [List.mem_insertionSort] at hr
    rcases List.mem_flatMap.mp hr with ⟨ct, _, hrct⟩
    rw [cityTop, List.mem_filter] at hrct
    obtain ⟨hr1, hr2⟩ := hrct
    rw [rankCity] at hr1
    rcases List.mem_map.mp hr1 with ⟨p, hp, hpr⟩
    have hge : 1 ≤ p.2 := (numberFrom_mem hp).2
    rw [← hrow1]
    refine ⟨?_, of_decide_eq_true hr2⟩
    rw [← hpr]
    exact hge
  · intro db
    rw [window_rank_in_city]
    exact List.Pairwise.map _ (fun a b h => h) (List.sorted_insertionSort wrLe _)
  · intro db ct
    constructor
    · rw [cityTop_eq, List.map_map, rankCity, List.length_map, numberFrom_length]
      have hcomp : ((fun r : RankedRow => r.rn) ∘ rrOfPair) =
          (Prod.snd : CityAgg × Nat → Nat) := rfl
      rw [hcomp, numberFrom_map_snd, List.length_take]
    · rw [rankCity]
      exact List.Pairwise.map rrOfPair (fun a b h => h)
        (numberFrom_pairwise 1 (List.sorted_insertionSort aggLe _))

/-- C2 witness: the rank bounds hold on the concrete top row of `exDb2`. -/
theorem window_rank_in_city_spec_witness :
    (WRRow.mk (some "Santiago") "Ana Soto" 40 1 ∈ window_rank_in_city exDb2) ∧
    (1 ≤ (WRRow.mk (some "Santiago") "Ana Soto" 40 1).rn ∧
      (WRRow.mk (some "Santiago") "Ana Soto" 40 1).rn ≤ 3) :=
  ⟨by
    norm_num +decide [window_rank_in_city, cityList, cityTop, rankCity, cityAgg,
      activeCustomers, hasOrder, paidRevenue, customerOrders, paidPart, fullName, rrOfPair,
      numberFrom, aggLe, wrLe, exDb2, List.insertionSort, List.orderedInsert, List.dedup,
      cityLt, strLt, strLtb],
    window_rank_in_city_spec.1 exDb2 (WRRow.mk (some "Santiago") "Ana Soto" 40 1) (by
    norm_num +decide [window_rank_in_city, cityList, cityTop, rankCity, cityAgg,
      activeCustomers, hasOrder, paidRevenue, customerOrders, paidPart, fullName, rrOfPair,
      numberFrom, aggLe, wrLe, exDb2, List.insertionSort, List.orderedInsert, List.dedup,
      cityLt, strLt, strLtb])⟩

/-- Demo state for C10: two distinct customers with identical first and last
names in the same city, each with one PAID order. -/
def exDb10 : DB :=
  DB.mk
    [Customer.mk 1 "Ana" "Soto" "user1@example.com" (some "Santiago") "2023-01-01",
     Customer.mk 2 "Ana" "Soto" "user2@example.com" (some "Santiago") "2023-01-02"]
    [Order.mk 1 1 "2024-01-01" "Books" 40 "PAID",
     Order.mk 2 2 "2024-01-02" "Books" 30 "PAID"]

/-- C10: the inner grouping of `window_rank_in_city` is `GROUP BY c.city,
c.customer_id`, not by displayed name: two distinct customers of the same city
sharing first and last name (each owning an order) are aggregated and ranked as
two separate rows, with separately computed revenues and distinct ranks, even
though both rows show the same concatenated name. -/
theorem window_rank_groups_by_id (db : DB) (c1 c2 : Customer)
    (hc1 : c1 ∈ db.customers) (hc2 : c2 ∈ db.customers)
    (hne : c1.customer_id ≠ c2.customer_id) (hcity : c2.city = c1.city)
    (hfn : c2.first_name = c1.first_name) (hln : c2.last_name = c1.last_name)
    (ho1 : hasOrder db c1.customer_id = true) (ho2 : hasOrder db c2.customer_id = true) :
    ∃ r1 ∈ rankCity db c1.city, ∃ r2 ∈ rankCity db c1.city,
      r1.customer_id = c1.customer_id ∧ r2.customer_id = c2.customer_id ∧
      r1.customer = fullName c1 ∧ r2.customer = fullName c1 ∧
      r1.revenue = paidRevenue db c1.customer_id ∧
      r2.revenue = paidRevenue db c2.customer_id ∧
      r1.rn ≠ r2.rn := by
  have hname : fullName c2 = fullName c1 := by
    rw [fullName, fullName, hfn, hln]
  have hmem1 : CityAgg.mk c1.city c1.customer_id (fullName c1) (paidRevenue db c1.customer_id)
      ∈ cityAgg db c1.city := by
    rw [cityAgg]
    refine List.mem_map.mpr ⟨c1, ?_, rfl⟩
    rw [List.mem_filter]
    refine ⟨?_, beq_self_eq_true _⟩
    rw [activeCustomers, List.mem_filter]
    exact ⟨hc1, ho1⟩
  have hmem2 : CityAgg.mk c2.city c2.customer_id (fullName c2) (paidRevenue db c2.customer_id)
      ∈ cityAgg db c1.city := by
    rw [cityAgg]
    refine List.mem_map.mpr ⟨c2, ?_, rfl⟩
    rw [List.mem_filter]
    refine ⟨?_, by rw [hcity]; exact beq_self_eq_true _⟩
    rw [activeCustomers, List.mem_filter]
    exact ⟨hc2, ho2⟩
  have hs1 := (List.mem_insertionSort aggLe).mpr hmem1
  have hs2 := (List.mem_insertionSort aggLe).mpr hmem2
  rcases numberFrom_mem_of_mem 1 hs1 with ⟨p, hp, hp1⟩
  rcases numberFrom_mem_of_mem 1 hs2 with ⟨q, hq, hq1⟩
  have hsnd : ((numberFrom 1 (List.insertionSort aggLe (cityAgg db c1.city))).map
      Prod.snd).Nodup := by
    rw [numberFrom_map_snd]
    exact List.nodup_range' _ _
  refine ⟨rrOfPair p, List.mem_map.mpr ⟨p, hp, rfl⟩,
    rrOfPair q, List.mem_map.mpr ⟨q, hq, rfl⟩, ?_, ?_, ?_, ?_, ?_, ?_, ?_⟩
  · show p.1.customer_id = c1.customer_id
    rw [hp1]
  · show q.1.customer_id = c2.customer_id
    rw [hq1]
  · show p.1.customer = fullName c1
    rw [hp1]
  · show q.1.customer = fullName c1
    rw [hq1]
    exact hname
  · show p.1.revenue = paidRevenue db c1.customer_id
    rw [hp1]
  · show q.1.revenue = paidRevenue db c2.customer_id
    rw [hq1]
  · show p.2 ≠ q.2
    intro heq
    have hpq : p = q := List.inj_on_of_nodup_map hsnd hp hq heq
    have hagg : CityAgg.mk c1.city c1.customer_id (fullName c1)
        (paidRevenue db c1.customer_id) =
        CityAgg.mk c2.city c2.customer_id (fullName c2) (paidRevenue db c2.customer_id) := by
      rw [← hp1, ← hq1, hpq]
    exact hne (congrArg CityAgg.customer_id hagg)

/-- C10 witness: on the concrete state `exDb10` the two namesake customers are
ranked as two separate rows with distinct ranks. -/
theorem window_rank_groups_by_id_witness :
    ((Customer.mk 1 "Ana" "Soto" "user1@example.com" (some "Santiago") "2023-01-01")
        ∈ exDb10.customers) ∧
    ((Customer.mk 2 "Ana" "Soto" "user2@example.com" (some "Santiago") "2023-01-02")
        ∈ exDb10.customers) ∧
    (∃ r1 ∈ rankCity exDb10
        (Customer.mk 1 "Ana" "Soto" "user1@example.com" (some "Santiago") "2023-01-01").city,
      ∃ r2 ∈ rankCity exDb10
        (Customer.mk 1 "Ana" "Soto" "user1@example.com" (some "Santiago") "2023-01-01").city,
        r1.customer_id = 1 ∧ r2.customer_id = 2 ∧
        r1.customer = fullName
          (Customer.mk 1 "Ana" "Soto" "user1@example.com" (some "Santiago") "2023-01-01") ∧
        r2.customer = fullName
          (Customer.mk 1 "Ana" "Soto" "user1@example.com" (some "Santiago") "2023-01-01") ∧
        r1.revenue = paidRevenue exDb10 1 ∧ r2.revenue = paidRevenue exDb10 2 ∧
        r1.rn ≠ r2.rn) :=
  ⟨by decide, by decide,
    window_rank_groups_by_id exDb10
      (Customer.mk 1 "Ana" "Soto" "user1@example.com" (some "Santiago") "2023-01-01")
      (Customer.mk 2 "Ana" "Soto" "user2@example.com" (some "Santiago") "2023-01-02")
      (by decide) (by decide) (by decide) rfl rfl rfl (by decide) (by decide)⟩

/-- Removing every customer row with the given id from the customers table. -/
def dropCustomer (db : DB) (cid : Nat) : DB :=
  DB.mk (db.customers.filter (fun c => !(c.customer_id == cid))) db.orders

theorem flatMap_filter_eq {α β : Type} (f : α → List β) (q : α → Bool) (l : List α)
    (h : ∀ x ∈ l, q x = false → f x = []) : (l.filter q).flatMap f = l.flatMap f := by
  induction l with
  | nil => rfl
  | cons a l ih =>
    have htail : ∀ x ∈ l, q x = false → f x = [] :=
      fun x hx => h x (List.mem_cons_of_mem a hx)
    rw [List.filter_cons]
    cases hq : q a with
    | true =>
      simp only [if_true]
      rw [List.flatMap_cons, List.flatMap_cons, ih htail]
    | false =>
      simp only [Bool.false_eq_true, if_false]
      rw [List.flatMap_cons, h a (List.mem_cons_self a l) hq, List.nil_append, ih htail]

theorem hasOrder_false_of_no_orders {db : DB} {cid : Nat}
    (h : ∀ o ∈ db.orders, o.customer_id ≠ cid) : hasOrder db cid = false := by
  rw [hasOrder, List.any_eq_false]
  intro o ho
  simpa using h o ho

theorem activeCustomers_drop {db : DB} {cid : Nat}
    (h : ∀ o ∈ db.orders, o.customer_id ≠ cid) :
    activeCustomers (dropCustomer db cid) = activeCustomers db := by
  show (db.customers.filter (fun c => !(c.customer_id == cid))).filter
      (fun c => hasOrder db c.customer_id) = db.customers.filter
      (fun c => hasOrder db c.customer_id)
  rw [List.filter_filter]
  apply List.filter_congr
  intro c _
  cases hco : hasOrder db c.customer_id with
  | false => rfl
  | true =>
    have hne : c.customer_id ≠ cid := by
      intro he
      rw [he, hasOrder_false_of_no_orders h] at hco
      exact Bool.false_ne_true hco
    simp [hne]

/-- Demo state for C4: the two active customers of `exDb1` plus the orderless
customer 3. -/
def exDb4 : DB :=
  DB.mk
    (exDb1.customers ++
      [Customer.mk 3 "Carla" "Rojas" "user3@example.com" (some "La Serena") "2023-01-03"])
    exDb1.orders

/-- C4: a customer owning zero order rows is invisible to the three joined
queries: no `top_customers` row carries its id, and removing the customer from
the customers table leaves the results of `top_customers`,
`category_city_matrix` and `window_rank_in_city` unchanged (the inner join
silently drops it; no null or zero-revenue row is produced). -/
theorem queries_ignore_orderless_customers (db : DB) (cid : Nat)
    (h : ∀ o ∈ db.orders, o.customer_id ≠ cid) :
    (∀ row ∈ top_customers db, row.customer_id ≠ cid) ∧
    top_customers (dropCustomer db cid) = top_customers db ∧
    category_city_matrix (dropCustomer db cid) = category_city_matrix db ∧
    window_rank_in_city (dropCustomer db cid) = window_rank_in_city db := by
  have hactive := activeCustomers_drop h
  refine ⟨?_, ?_, ?_, ?_⟩
  · intro row hrow heq
    rcases mem_top_customers hrow with ⟨c, hc, hrc, _⟩
    have hco : hasOrder db c.customer_id = true := (List.mem_filter.mp hc).2
    have hrid : row.customer_id = c.customer_id := by
      rw [hrc]
      rfl
    rw [hrid] at heq
    rw [heq, hasOrder_false_of_no_orders h] at hco
    exact Bool.false_ne_true hco
  · have htc : tcRow (dropCustomer db cid) = tcRow db := rfl
    rw [top_customers, top_customers, htc, hactive]
  · have hjoin : joinRows (dropCustomer db cid) = joinRows db := by
      show (db.customers.filter (fun c => !(c.customer_id == cid))).flatMap
          (fun c => (customerOrders db c.customer_id).map (fun o => (c, o))) =
        db.customers.flatMap (fun c => (customerOrders db c.customer_id).map (fun o => (c, o)))
      apply flatMap_filter_eq
      intro x _ hqx
      have hxe : x.customer_id = cid := by simpa using hqx
      have hnil : customerOrders db cid = [] := by
        rw [customerOrders, List.filter_eq_nil_iff]
        intro o ho
        simpa using h o ho
      rw [hxe, hnil]
      rfl
    have hkeys : ccKeys (dropCustomer db cid) = ccKeys db := by
      rw [ccKeys, ccKeys, hjoin]
    have hrev : ccRevenue (dropCustomer db cid) = ccRevenue db := by
      funext k
      rw [ccRevenue, ccRevenue, hjoin]
    rw [category_city_matrix, category_city_matrix, hkeys, hrev]
  · have hagg : cityAgg (dropCustomer db cid) = cityAgg db := by
      funext ct
      rw [cityAgg, cityAgg, hactive]
      rfl
    have hct : cityTop (dropCustomer db cid) = cityTop db := by
      funext ct
      rw [cityTop, cityTop, rankCity, rankCity, hagg]
    have hcl : cityList (dropCustomer db cid) = cityList db := by
      rw [cityList, cityList, hactive]
    rw [window_rank_in_city, window_rank_in_city, hct, hcl]

/-- C4 witness: dropping the orderless customer 3 from the concrete state
`exDb4` changes none of the three query results, and no `top_customers` row
carries id 3. -/
theorem queries_ignore_orderless_customers_witness :
    (∀ o ∈ exDb4.orders, o.customer_id ≠ 3) ∧
    ((∀ row ∈ top_customers exDb4, row.customer_id ≠ 3) ∧
      top_customers (dropCustomer exDb4 3) = top_customers exDb4 ∧
      category_city_matrix (dropCustomer exDb4 3) = category_city_matrix exDb4 ∧
      window_rank_in_city (dropCustomer exDb4 3) = window_rank_in_city exDb4) :=
  ⟨by decide, queries_ignore_orderless_customers exDb4 3 (by decide)⟩
